import Mathlib

/- Verification development for the gap static call-graph analyzer.

The repository indexes the functions of a Go project, extracts and
classifies the call expressions of every function body, assembles a
call graph, and overlays per-function test-coverage status from a
coverage profile.  Below, the relevant Go functions are shallowly
embedded as Lean definitions (the go/ast expression forms these
functions inspect become the inductive type Expr; filesystem and parser
inputs become explicit parameters), and theorems about the embedding
settle the specification's claims. -/

/- ----------------------------------------------------------------- -/
/- Coverage analysis: src/tools/coverage.go                          -/
/- ----------------------------------------------------------------- -/

/- CoverageBlock (coverage.go lines 22-28): a block of code of the
coverage profile and its execution count. -/
structure CoverageBlock where
  startLine : Nat
  startCol : Nat
  endLine : Nat
  endCol : Nat
  count : Int
deriving DecidableEq

/- The data of an ast.FuncDecl that isFunctionCovered and
ListUntestedFunctions consult: the declaration's line span and whether
the declaration has a body (fn.Body != nil). -/
structure FuncDecl where
  startLine : Nat
  endLine : Nat
  hasBody : Bool
deriving DecidableEq

/- isFunctionCovered (coverage.go lines 193-211).  A declaration
without a body returns false; otherwise the loop returns true as soon
as any block of the file has Count > 0.  The function's own line span
is not consulted (the position comparison is commented out in the
source). -/
def isFunctionCovered (fn : FuncDecl) (blocks : List CoverageBlock) : Bool :=
  if fn.hasBody then blocks.any (fun b => decide (0 < b.count)) else false

/- The per-function decision of ListUntestedFunctions (coverage.go
lines 68-99): a function whose file has no coverage entry is untested;
otherwise it is untested exactly when isFunctionCovered is false. -/
def markedUntested (fn : FuncDecl) (fileBlocks : Option (List CoverageBlock)) : Bool :=
  match fileBlocks with
  | none => true
  | some blocks => ! isFunctionCovered fn blocks

/- Modelled from the spec: the coverage classification the
specification prescribes for a function: covered iff at least one
block whose line range overlaps the function's own span has hit count
greater than zero. -/
def coveredPerSpec (fn : FuncDecl) (blocks : List CoverageBlock) : Bool :=
  blocks.any (fun b =>
    decide (0 < b.count) && decide (b.startLine ≤ fn.endLine) && decide (fn.startLine ≤ b.endLine))

/- Concrete coverage scenario of claim C1: a function spanning lines
10 to 20 whose file's only profile block covers lines 25 to 30 with
hit count 5. -/
def c1fn : FuncDecl := { startLine := 10, endLine := 20, hasBody := true }

def c1blocks : List CoverageBlock :=
  [{ startLine := 25, startCol := 0, endLine := 30, endCol := 0, count := 5 }]

/- ----------------------------------------------------------------- -/
/- Call extraction: src/tools/functions.go                           -/
/- ----------------------------------------------------------------- -/

/- The go/ast expression forms that GetFunctionCalls, getFunctionName
and analyzeFunctionCalls inspect: identifiers, selector expressions,
call expressions, function literals (whose bodies are modelled by the
expressions they contain, as ast.Inspect visits exactly those), and
other leaves (literals such as 42 or "s"). -/
inductive Expr where
  | ident (name : String)
  | basicLit (text : String)
  | selector (x : Expr) (sel : String)
  | call (fn : Expr) (args : List Expr)
  | funcLit (body : List Expr)

/- exprToString (src/unnamed/part_002 lines 396-403, via go/format):
the textual rendering of an expression.  The statement text inside a
function literal is abbreviated; no claim depends on that text. -/
mutual

def exprToString : Expr → String
  | .ident n => n
  | .basicLit t => t
  | .selector x sel => exprToString x ++ "." ++ sel
  | .call f args => exprToString f ++ "(" ++ exprToStringArgs args ++ ")"
  | .funcLit _ => "func() { ... }"

def exprToStringArgs : List Expr → String
  | [] => ""
  | [e] => exprToString e
  | e :: es => exprToString e ++ ", " ++ exprToStringArgs es

end

/- getFunctionName (functions.go lines 160-192): from the Fun
sub-expression of a call, extract (functionName, packageName,
receiverName).  A selector whose base is a plain identifier is
package-qualified exactly when the identifier is a known import alias
of the file; any other base becomes opaque receiver text. -/
def getFunctionName (f : Expr) (imports : List String) : String × String × String :=
  match f with
  | .ident n => (n, "", "")
  | .selector x sel =>
      match x with
      | .ident xn => if imports.contains xn then (sel, xn, "") else (sel, "", xn)
      | _ => (sel, "", exprToString x)
  | .funcLit _ => ("func", "", "")
  | e => (exprToString e, "", "")

/- FunctionCallInfo (src/unnamed/part_003 lines 9-19), restricted to
the fields the analysis computes from the syntax alone; Line and
FilePath, which come from the token.FileSet and the project root, are
omitted. -/
inductive FunctionCallInfo where
  | mk (function : String) (package : String) (receiver : String)
       (arguments : List String) (calls : List FunctionCallInfo)
       (fullExpr : String)

def FunctionCallInfo.function : FunctionCallInfo → String
  | .mk f _ _ _ _ _ => f

def FunctionCallInfo.package : FunctionCallInfo → String
  | .mk _ p _ _ _ _ => p

def FunctionCallInfo.receiver : FunctionCallInfo → String
  | .mk _ _ r _ _ _ => r

def FunctionCallInfo.arguments : FunctionCallInfo → List String
  | .mk _ _ _ a _ _ => a

def FunctionCallInfo.calls : FunctionCallInfo → List FunctionCallInfo
  | .mk _ _ _ _ c _ => c

def FunctionCallInfo.fullExpr : FunctionCallInfo → String
  | .mk _ _ _ _ _ e => e

/- The shared ast.Inspect walker of GetFunctionCalls (functions.go
lines 106-119) and extractNestedCalls (lines 194-210): on reaching a
call expression it emits the record built by extractCallInfo (lines
124-158) and does not descend further (the callback returns false);
extractCallInfo itself re-scans each argument with the same walker.
Other nodes are traversed transparently. -/
mutual

def extractNestedCalls (imports : List String) : Expr → List FunctionCallInfo
  | .call f args =>
      [FunctionCallInfo.mk (getFunctionName f imports).1
        (getFunctionName f imports).2.1 (getFunctionName f imports).2.2
        (args.map exprToString) (extractNestedCallsList imports args)
        (exprToString (.call f args))]
  | .selector x _ => extractNestedCalls imports x
  | .funcLit body => extractNestedCallsList imports body
  | .ident _ => []
  | .basicLit _ => []

def extractNestedCallsList (imports : List String) : List Expr → List FunctionCallInfo
  | [] => []
  | e :: es => extractNestedCalls imports e ++ extractNestedCallsList imports es

end

/- extractCallInfo (functions.go lines 124-158) as a standalone
record builder; extractNestedCalls emits exactly this record on a
call expression. -/
def extractCallInfo (imports : List String) (f : Expr) (args : List Expr) : FunctionCallInfo :=
  FunctionCallInfo.mk (getFunctionName f imports).1
    (getFunctionName f imports).2.1 (getFunctionName f imports).2.2
    (args.map exprToString) (extractNestedCallsList imports args)
    (exprToString (.call f args))

/- GetFunctionCalls (functions.go lines 28-122): the walk over the
statements of the located function body, each statement modelled by
the expressions it contains. -/
def GetFunctionCalls (imports : List String) (body : List Expr) : List FunctionCallInfo :=
  extractNestedCallsList imports body

/- The number of call expressions the walker encounters: one per call
expression reached, re-scanning each argument but never re-descending
into a call's target expression. -/
mutual

def countCalls : Expr → Nat
  | .call _ args => 1 + countCallsList args
  | .selector x _ => countCalls x
  | .funcLit body => countCallsList body
  | .ident _ => 0
  | .basicLit _ => 0

def countCallsList : List Expr → Nat
  | [] => 0
  | e :: es => countCalls e + countCallsList es

end

/- The total number of call records in a result, nested records
included. -/
def totalRecords : List FunctionCallInfo → Nat
  | [] => 0
  | .mk _ _ _ _ calls _ :: rest => 1 + totalRecords calls + totalRecords rest

/- ----------------------------------------------------------------- -/
/- Indexing and call analysis: src/unnamed/part_001                  -/
/- ----------------------------------------------------------------- -/

/- builtInFuncs (part_001 lines 22-35): the built-in operations that
are never recorded as calls. -/
def builtInFuncs : List String :=
  ["len", "cap", "append", "copy", "close", "delete",
   "make", "new", "panic", "recover", "string", "println"]

/- External (part_001 lines 50-54). -/
structure External where
  name : String
  type : String
  importPath : String
deriving DecidableEq

/- FunctionInfo of part_001 (lines 37-47), here FunctionInfoL to
distinguish it from the FunctionInfo that graph assembly consumes;
FunctionCalls holds references to other descriptors, modelled by
value. -/
inductive FunctionInfoL where
  | mk (fileName funcName : String) (line : Nat) (pkgName : String)
       (parameters returns : List String)
       (externals : List External) (functionCalls : List FunctionInfoL)

def FunctionInfoL.funcName : FunctionInfoL → String
  | .mk _ f _ _ _ _ _ _ => f

def FunctionInfoL.pkgName : FunctionInfoL → String
  | .mk _ _ _ p _ _ _ _ => p

def FunctionInfoL.externals : FunctionInfoL → List External
  | .mk _ _ _ _ _ _ e _ => e

def FunctionInfoL.functionCalls : FunctionInfoL → List FunctionInfoL
  | .mk _ _ _ _ _ _ _ c => c

/- The registry key of the indexing pass (part_001 lines 150-153):
"pkgName.funcName". -/
def registryKey (pkgName funcName : String) : String :=
  pkgName ++ "." ++ funcName

/- Go map lookup for the string-keyed maps of the analyzer. -/
def lookupKey {α : Type} : List (String × α) → String → Option α
  | [], _ => none
  | (k, v) :: rest, key => if k = key then some v else lookupKey rest key

/- The read-only inputs of analyzeFunctionCalls (part_001 line 338):
the owning package, the frozen registry, the file's import table, the
standard-library package set and the project module path. -/
structure AnalyzeEnv where
  pkgName : String
  internalFuncs : List (String × FunctionInfoL)
  importMap : List (String × String)
  stdPkgs : List String
  modulePath : String

/- The state analyzeFunctionCalls mutates: the function's
FunctionCalls and Externals lists. -/
structure AnalyzeSt where
  functionCalls : List FunctionInfoL
  externals : List External

/- filepath.Base restricted to the slash-separated import paths the
analyzer feeds it: the last path segment. -/
def filepathBase (p : String) : String :=
  (p.splitOn "/").getLastD p

/- The classification switch of analyzeFunctionCalls (part_001 lines
377-457) for one call expression's Fun sub-expression.  A bare
identifier is ignored when built-in, recorded as an internal call on a
registry hit and as an unknown external otherwise; a selector is
ignored unless its base is a plain identifier found in the import
table, ignored for standard-library paths, resolved against the
registry for in-module paths, recorded as an external otherwise; every
remaining form (function literals among them) is ignored. -/
def analyzeCallFun (env : AnalyzeEnv) (st : AnalyzeSt) : Expr → AnalyzeSt
  | .ident funcName =>
      if builtInFuncs.contains funcName then st
      else
        match lookupKey env.internalFuncs (registryKey env.pkgName funcName) with
        | some calledFunc =>
            { st with functionCalls := st.functionCalls ++ [calledFunc] }
        | none =>
            { st with externals := st.externals ++ [{ name := funcName, type := "", importPath := "" }] }
  | .selector x sel =>
      match x with
      | .ident pkgAlias =>
          match lookupKey env.importMap pkgAlias with
          | none => st
          | some importPath =>
              if env.stdPkgs.contains importPath then st
              else if env.modulePath.data.isPrefixOf importPath.data then
                match lookupKey env.internalFuncs (registryKey (filepathBase importPath) sel) with
                | some calledFunc =>
                    { st with functionCalls := st.functionCalls ++ [calledFunc] }
                | none =>
                    { st with externals := st.externals ++ [{ name := sel, type := pkgAlias, importPath := importPath }] }
              else
                { st with externals := st.externals ++ [{ name := sel, type := pkgAlias, importPath := importPath }] }
      | _ => st
  | _ => st

/- The ast.Inspect traversal of analyzeFunctionCalls (part_001 lines
371-460): the callback acts on every call expression and always
returns true, so the walk continues into the call's target and
arguments. -/
mutual

def analyzeVisit (env : AnalyzeEnv) (st : AnalyzeSt) : Expr → AnalyzeSt
  | .call f args => analyzeVisitList env (analyzeVisit env (analyzeCallFun env st f) f) args
  | .selector x _ => analyzeVisit env st x
  | .funcLit body => analyzeVisitList env st body
  | .ident _ => st
  | .basicLit _ => st

def analyzeVisitList (env : AnalyzeEnv) (st : AnalyzeSt) : List Expr → AnalyzeSt
  | [] => st
  | e :: es => analyzeVisitList env (analyzeVisit env st e) es

end

/- The second pass of ListFunctions (part_001 lines 165-171): each
function is analyzed; a failure (the body failing to re-parse among
its causes, all of which precede the traversal) is logged and the
function keeps its lists unchanged — the empty lists indexing gave it.
The analysis outcome per function is the explicit parameter resL. -/
def secondPassOne (resL : FunctionInfoL → Except String AnalyzeSt) (f : FunctionInfoL) :
    FunctionInfoL :=
  match resL f with
  | Except.error _ => f
  | Except.ok st =>
      match f with
      | .mk fileName funcName line pkgName params rets _ _ =>
          .mk fileName funcName line pkgName params rets st.externals st.functionCalls

def secondPass (resL : FunctionInfoL → Except String AnalyzeSt) (fns : List FunctionInfoL) :
    List FunctionInfoL :=
  fns.map (secondPassOne resL)

/- ----------------------------------------------------------------- -/
/- Module manifest lookup: getModulePath (part_001 lines 192-222)    -/
/- ----------------------------------------------------------------- -/

/- strings.Fields of a go.mod line: the maximal whitespace-free runs
of the line, built over the character list. -/
def fieldsAux (cs : List Char) (cur : List Char) : List String :=
  match cs with
  | [] => if cur = [] then [] else [String.mk cur.reverse]
  | c :: rest =>
      if c.isWhitespace then
        if cur = [] then fieldsAux rest []
        else String.mk cur.reverse :: fieldsAux rest []
      else fieldsAux rest (c :: cur)

def goModFields (line : String) : List String :=
  fieldsAux line.data []

/- The scan of go.mod (part_001 lines 202-211): the first line with
the module keyword at its head and at least two fields yields its
second field; a matching line with fewer fields is passed over.
strings.HasPrefix is computed on the character lists. -/
def findModuleLine : List String → Option String
  | [] => none
  | line :: rest =>
      if "module ".data.isPrefixOf line.data then
        match goModFields line with
        | _ :: m :: _ => some m
        | _ => findModuleLine rest
      else findModuleLine rest

/- getModulePath (part_001 lines 192-222).  Directories are segment
lists ([] is the filesystem root, where filepath.Dir is a fixed
point); fs maps a directory to the lines of its go.mod when that file
exists.  The walk reads the first go.mod found on the way up; a found
file without a module line stops the walk with an error. -/
def getModulePath (fs : List String → Option (List String)) (dir : List String) :
    Except String String :=
  match fs dir with
  | some lines =>
      match findModuleLine lines with
      | some m => Except.ok m
      | none => Except.error "module path not found in go.mod"
  | none =>
      if h : dir = [] then Except.error "go.mod not found in any parent directories"
      else getModulePath fs dir.dropLast
termination_by dir.length
decreasing_by
  simp only [List.length_dropLast]
  exact Nat.sub_lt (List.length_pos.mpr h) Nat.one_pos

/- The skeleton of ListFunctions (part_001 lines 60-173): module-path
resolution must succeed before anything is returned; the indexing walk
and the per-function analysis outcomes are explicit parameters (they
are filesystem and parser effects). -/
def ListFunctionsModel (fs : List String → Option (List String)) (projectDir : List String)
    (indexed : List FunctionInfoL) (resL : FunctionInfoL → Except String AnalyzeSt) :
    Except String (List FunctionInfoL) :=
  match getModulePath fs projectDir with
  | Except.error e => Except.error ("failed to get module path: " ++ e)
  | Except.ok _ => Except.ok (secondPass resL indexed)

/- ----------------------------------------------------------------- -/
/- Graph assembly: src/tools/graph.go                                -/
/- ----------------------------------------------------------------- -/

/- ParameterInfo, ReturnInfo and FunctionInfo of src/unnamed/part_002
(lines 138-160), the descriptor type BuildCallGraph consumes. -/
structure ParameterInfo where
  name : String
  type : String
  importPath : String
  importName : String
deriving DecidableEq

structure ReturnInfo where
  type : String
  importPath : String
  importName : String
deriving DecidableEq

structure FunctionInfo where
  relativeFilePath : String
  pkgName : String
  name : String
  structName : String
  parameters : List ParameterInfo
  returns : List ReturnInfo
  lineNumberStart : Nat
  lineNumberEnd : Nat
deriving DecidableEq

/- getFunctionFullName (graph.go lines 225-230): StructName.Name for a
method, bare Name otherwise; the package is not part of the key. -/
def getFunctionFullName (fi : FunctionInfo) : String :=
  if fi.structName ≠ "" then fi.structName ++ "." ++ fi.name else fi.name

/- FunctionNode and CallGraph (src/unnamed/part_003 lines 37-45); the
Calls and CalledBy maps are modelled by their key lists, each key
standing for the pointer to the node of that name. -/
structure FunctionNode where
  name : String
  calls : List String
  calledBy : List String
deriving DecidableEq

structure CallGraph where
  nodes : List (String × FunctionNode)
deriving DecidableEq

/- Go map assignment on a key list: membership-idempotent insertion. -/
def insertKey (k : String) (l : List String) : List String :=
  if k ∈ l then l else l ++ [k]

def updateNode (nodes : List (String × FunctionNode)) (key : String)
    (f : FunctionNode → FunctionNode) : List (String × FunctionNode) :=
  nodes.map (fun p => if p.1 = key then (p.1, f p.2) else p)

/- Node creation of BuildCallGraph (lines 171-177 and 207-213): a node
is created only when its key is absent. -/
def addNode (g : CallGraph) (name : String) : CallGraph :=
  match lookupKey g.nodes name with
  | some _ => g
  | none => ⟨g.nodes ++ [(name, { name := name, calls := [], calledBy := [] })]⟩

/- Edge insertion (graph.go lines 206-218): ensure the called node
exists, then record the relationship in the caller's Calls map and the
callee's CalledBy map. -/
def addEdge (g : CallGraph) (src dst : String) : CallGraph :=
  let g1 := addNode g dst
  let g2 : CallGraph := ⟨updateNode g1.nodes src (fun n => { n with calls := insertKey dst n.calls })⟩
  ⟨updateNode g2.nodes dst (fun n => { n with calledBy := insertKey src n.calledBy })⟩

/- The called-function key (graph.go lines 198-204). -/
def calledFuncName (c : FunctionCallInfo) : String :=
  if c.receiver ≠ "" then c.receiver ++ "." ++ c.function
  else if c.package ≠ "" then c.package ++ "." ++ c.function
  else c.function

/- First loop of BuildCallGraph (lines 168-178): one node per
function. -/
def initNodes (fns : List FunctionInfo) : CallGraph :=
  fns.foldl (fun g fi => addNode g (getFunctionFullName fi)) ⟨[]⟩

/- The edge loop of BuildCallGraph (lines 197-219) for one function's
resolved top-level calls. -/
def addCallEdges (g : CallGraph) (src : String) (calls : List FunctionCallInfo) : CallGraph :=
  calls.foldl (fun g c => addEdge g src (calledFuncName c)) g

/- Second loop of BuildCallGraph (lines 180-220): per function, the
body is re-read and re-parsed (GetFunctionWithComments) and its calls
resolved (GetFunctionCalls); both effects are abstracted into res.  A
failure aborts the whole build. -/
def buildCallGraphGo (res : FunctionInfo → Except String (List FunctionCallInfo)) :
    List FunctionInfo → CallGraph → Except String CallGraph
  | [], g => Except.ok g
  | fi :: rest, g =>
      match res fi with
      | Except.error e => Except.error e
      | Except.ok calls =>
          buildCallGraphGo res rest (addCallEdges g (getFunctionFullName fi) calls)

/- BuildCallGraph (graph.go lines 165-223). -/
def BuildCallGraph (res : FunctionInfo → Except String (List FunctionCallInfo))
    (fns : List FunctionInfo) : Except String CallGraph :=
  buildCallGraphGo res fns (initNodes fns)

/- The key set of a node's Calls map (empty for an absent node). -/
def callsKeys (g : CallGraph) (a : String) : List String :=
  match lookupKey g.nodes a with
  | some n => n.calls
  | none => []

/- The key set of a node's CalledBy map. -/
def calledByKeys (g : CallGraph) (a : String) : List String :=
  match lookupKey g.nodes a with
  | some n => n.calledBy
  | none => []

/- The adjacency symmetry the specification asserts of every
assembled graph. -/
def SymGraph (g : CallGraph) : Prop :=
  ∀ a b, b ∈ callsKeys g a ↔ a ∈ calledByKeys g b

/- ----------------------------------------------------------------- -/
/- Concrete instances used by the theorems below                     -/
/- ----------------------------------------------------------------- -/

/- Claim C2: the method Run on a type Worker declared in package x and
again in package y. -/
def c2x : FunctionInfo :=
  { relativeFilePath := "x/worker.go", pkgName := "x", name := "Run", structName := "Worker",
    parameters := [], returns := [], lineNumberStart := 1, lineNumberEnd := 2 }

def c2y : FunctionInfo :=
  { relativeFilePath := "y/worker.go", pkgName := "y", name := "Run", structName := "Worker",
    parameters := [], returns := [], lineNumberStart := 1, lineNumberEnd := 2 }

/- Claim C3: a file with no imports and an empty registry, and a body
holding the single method call v.Fn(). -/
def c3env : AnalyzeEnv :=
  { pkgName := "main", internalFuncs := [], importMap := [], stdPkgs := [],
    modulePath := "example.com/app" }

def c3body : List Expr := [.call (.selector (.ident "v") "Fn") []]

/- Claim C4: a registry holding main.Foo only. -/
def c4fd : FunctionInfoL := .mk "a.go" "Foo" 3 "main" [] [] [] []

def c4env : AnalyzeEnv :=
  { pkgName := "main", internalFuncs := [("main.Foo", c4fd)], importMap := [], stdPkgs := [],
    modulePath := "example.com/app" }

def c4st : AnalyzeSt := { functionCalls := [], externals := [] }

/- Claim C7: two indexed functions of which the first fails to
re-parse during resolution. -/
def c7fnA : FunctionInfo :=
  { relativeFilePath := "a.go", pkgName := "main", name := "A", structName := "",
    parameters := [], returns := [], lineNumberStart := 1, lineNumberEnd := 3 }

def c7fnB : FunctionInfo :=
  { relativeFilePath := "b.go", pkgName := "main", name := "B", structName := "",
    parameters := [], returns := [], lineNumberStart := 1, lineNumberEnd := 3 }

def c7res : FunctionInfo → Except String (List FunctionCallInfo) :=
  fun fi => if fi.name = "A" then Except.error "failed to parse function code" else Except.ok []

def c7l : FunctionInfoL := .mk "a.go" "A" 1 "main" [] [] [] []

/- Claim C8: a filesystem whose only manifest sits in directory a,
declaring module m1. -/
def c8fs : List String → Option (List String) :=
  fun p => if p = ["a"] then some ["module m1"] else none

/- Claim C9: one function A whose single resolved call targets B. -/
def c9fn : FunctionInfo :=
  { relativeFilePath := "a.go", pkgName := "main", name := "A", structName := "",
    parameters := [], returns := [], lineNumberStart := 1, lineNumberEnd := 3 }

def c9call : FunctionCallInfo := .mk "B" "" "" [] [] "B()"

def c9res : FunctionInfo → Except String (List FunctionCallInfo) :=
  fun _ => Except.ok [c9call]

def c9graph : CallGraph := ((BuildCallGraph c9res [c9fn]).toOption).getD (CallGraph.mk [])

/- ----------------------------------------------------------------- -/
/- Theorems                                                          -/
/- ----------------------------------------------------------------- -/

/-- Claim C1 (code bug): the claim says a function is marked covered
only if some block overlapping its own line span has positive count,
so a function spanning lines 10-20 with the file's only block at lines
25-30 (count 5) must be reported untested.  The code disagrees:
isFunctionCovered ignores line ranges, returns covered for this input,
and ListUntestedFunctions therefore does not report the function,
while the spec-prescribed overlap check classifies it uncovered. -/
theorem c1_coverage_ignores_span :
    isFunctionCovered c1fn c1blocks = true
    ∧ markedUntested c1fn (some c1blocks) = false
    ∧ coveredPerSpec c1fn c1blocks = false := by
  refine ⟨by decide, by decide, by decide⟩

/-- Claim C10: a function declaration without a body is always
classified untested by the coverage analyzer, whatever the blocks of
its file and their hit counts: isFunctionCovered returns false at once
when fn.Body is nil, and ListUntestedFunctions then lists the
function (it also lists it when the file has no coverage entry). -/
theorem c10_bodyless_always_untested (fn : FuncDecl) (fileBlocks : Option (List CoverageBlock))
    (h : fn.hasBody = false) : markedUntested fn fileBlocks = true := by
  cases fileBlocks with
  | none => rfl
  | some blocks => simp [markedUntested, isFunctionCovered, h]

/-- Witness for c10_bodyless_always_untested at a concrete bodyless
declaration whose file has a block with a large hit count. -/
theorem c10_bodyless_always_untested_witness :
    markedUntested { startLine := 1, endLine := 2, hasBody := false }
      (some [{ startLine := 1, startCol := 0, endLine := 2, endCol := 0, count := 7 }]) = true :=
  c10_bodyless_always_untested _ _ rfl

theorem totalRecords_append (a b : List FunctionCallInfo) :
    totalRecords (a ++ b) = totalRecords a + totalRecords b := by
  induction a with
  | nil => simp [totalRecords]
  | cons c rest ih =>
      cases c with
      | mk f p r args calls full => simp [totalRecords, ih]; omega

mutual

theorem totalRecords_extract (imports : List String) :
    (e : Expr) → totalRecords (extractNestedCalls imports e) = countCalls e
  | .call f args => by
      simp [extractNestedCalls, countCalls, totalRecords,
        totalRecords_extractList imports args]
  | .selector x _ => by
      simp [extractNestedCalls, countCalls, totalRecords_extract imports x]
  | .funcLit body => by
      simp [extractNestedCalls, countCalls, totalRecords_extractList imports body]
  | .ident _ => by simp [extractNestedCalls, countCalls, totalRecords]
  | .basicLit _ => by simp [extractNestedCalls, countCalls, totalRecords]

theorem totalRecords_extractList (imports : List String) :
    (es : List Expr) → totalRecords (extractNestedCallsList imports es) = countCallsList es
  | [] => by simp [extractNestedCallsList, countCallsList, totalRecords]
  | e :: es => by
      simp [extractNestedCallsList, countCallsList, totalRecords_append,
        totalRecords_extract imports e, totalRecords_extractList imports es]

end

/-- Claim C3 (amended): in the resolver used by graph assembly
(GetFunctionCalls), call recording is total: every call expression the
walker encounters yields exactly one record (counting nested records,
the output holds one record per encountered call expression), and each
record carries exactly one classification (a record is never both
package-qualified and receiver-qualified).  The claim as stated over
every resolver is false: analyzeFunctionCalls of the ListFunctions
pipeline silently drops selector calls through unknown aliases,
complex-receiver method calls, standard-library calls and literal
invocations (see the counterexample theorem). -/
theorem c3_getFunctionCalls_total (imports : List String) (body : List Expr) :
    totalRecords (GetFunctionCalls imports body) = countCallsList body
    ∧ ∀ f : Expr,
        (getFunctionName f imports).2.1 = "" ∨ (getFunctionName f imports).2.2 = "" := by
  refine ⟨totalRecords_extractList imports body, ?_⟩
  intro f
  cases f with
  | ident n => exact Or.inl rfl
  | basicLit t => exact Or.inl rfl
  | funcLit b => exact Or.inl rfl
  | call g args => exact Or.inl rfl
  | selector x sel =>
      cases x with
      | ident xn =>
          by_cases h : xn ∈ imports
          · exact Or.inr (by simp [getFunctionName, h])
          · exact Or.inl (by simp [getFunctionName, h])
      | basicLit t => exact Or.inl rfl
      | selector y s2 => exact Or.inl rfl
      | call g args => exact Or.inl rfl
      | funcLit b => exact Or.inl rfl

/-- Claim C5: a selector call v.Fn() whose base v is a plain
identifier that is not a known import alias of the file is classified
as a method call: getFunctionName yields receiver text v with an empty
package, and the record extractCallInfo builds is neither
package-qualified nor external. -/
theorem c5_unknown_alias_is_method_call (v fn : String) (imports : List String)
    (args : List Expr) (h : imports.contains v = false) :
    getFunctionName (.selector (.ident v) fn) imports = (fn, "", v)
    ∧ (extractCallInfo imports (.selector (.ident v) fn) args).package = ""
    ∧ (extractCallInfo imports (.selector (.ident v) fn) args).receiver = v
    ∧ (extractCallInfo imports (.selector (.ident v) fn) args).function = fn := by
  have h' : v ∉ imports := by simpa using h
  refine ⟨?_, ?_, ?_, ?_⟩ <;>
    simp [getFunctionName, extractCallInfo, h',
      FunctionCallInfo.package, FunctionCallInfo.receiver, FunctionCallInfo.function]

/-- Witness for c5_unknown_alias_is_method_call: the call
s.DoSomething() in a file with no imports. -/
theorem c5_unknown_alias_is_method_call_witness :
    getFunctionName (.selector (.ident "s") "DoSomething") [] = ("DoSomething", "", "s")
    ∧ (extractCallInfo [] (.selector (.ident "s") "DoSomething") []).package = ""
    ∧ (extractCallInfo [] (.selector (.ident "s") "DoSomething") []).receiver = "s"
    ∧ (extractCallInfo [] (.selector (.ident "s") "DoSomething") []).function = "DoSomething" :=
  c5_unknown_alias_is_method_call "s" "DoSomething" [] [] rfl

/-- Claim C6: for the body statement Outer(Inner1(), Inner2(x)), call
extraction yields exactly one top-level call site, for Outer, whose
nested list holds exactly the two records for Inner1 and Inner2; no
separate top-level entries appear for the inner calls and the outer
call's target expression is not re-descended. -/
theorem c6_nested_calls_structure :
    GetFunctionCalls []
      [.call (.ident "Outer")
        [.call (.ident "Inner1") [], .call (.ident "Inner2") [.ident "x"]]] =
      [FunctionCallInfo.mk "Outer" "" "" ["Inner1()", "Inner2(x)"]
        [FunctionCallInfo.mk "Inner1" "" "" [] [] "Inner1()",
         FunctionCallInfo.mk "Inner2" "" "" ["x"] [] "Inner2(x)"]
        "Outer(Inner1(), Inner2(x))"] := rfl


theorem lookupKey_cons {α : Type} (k : String) (v : α) (rest : List (String × α)) (a : String) :
    lookupKey ((k, v) :: rest) a = if k = a then some v else lookupKey rest a := rfl

theorem lookupKey_append_single {α : Type} (nodes : List (String × α)) (x : String) (v : α)
    (a : String) :
    lookupKey (nodes ++ [(x, v)]) a =
      match lookupKey nodes a with
      | some m => some m
      | none => if x = a then some v else none := by
  induction nodes with
  | nil => simp [lookupKey]
  | cons p rest ih =>
      obtain ⟨k, w⟩ := p
      by_cases h : k = a
      · simp [lookupKey, h]
      · simp [lookupKey, h, ih]

theorem updateNode_cons (k : String) (w : FunctionNode) (rest : List (String × FunctionNode))
    (key : String) (f : FunctionNode → FunctionNode) :
    updateNode ((k, w) :: rest) key f =
      (if k = key then (k, f w) else (k, w)) :: updateNode rest key f := rfl

theorem lookupKey_updateNode (nodes : List (String × FunctionNode)) (key : String)
    (f : FunctionNode → FunctionNode) (a : String) :
    lookupKey (updateNode nodes key f) a =
      if a = key then (lookupKey nodes a).map f else lookupKey nodes a := by
  induction nodes with
  | nil => by_cases h : a = key <;> simp [updateNode, lookupKey, h]
  | cons p rest ih =>
      obtain ⟨k, w⟩ := p
      rw [updateNode_cons]
      by_cases hkey : k = key
      · subst hkey
        by_cases hka : k = a
        · subst hka
          simp [lookupKey_cons]
        · simp [lookupKey_cons, hka, ih]
      · by_cases hka : k = a
        · subst hka
          simp [lookupKey_cons, hkey]
        · simp [lookupKey_cons, hka, hkey, ih]

theorem addNode_present (g : CallGraph) (x : String) (n : FunctionNode)
    (h : lookupKey g.nodes x = some n) : addNode g x = g := by
  simp [addNode, h]

theorem addNode_absent (g : CallGraph) (x : String) (h : lookupKey g.nodes x = none) :
    addNode g x = CallGraph.mk (g.nodes ++ [(x, { name := x, calls := [], calledBy := [] })]) := by
  simp [addNode, h]

theorem lookupKey_addNode_of_ne (g : CallGraph) (x a : String) (h : x ≠ a) :
    lookupKey (addNode g x).nodes a = lookupKey g.nodes a := by
  cases hx : lookupKey g.nodes x with
  | some n => rw [addNode_present g x n hx]
  | none =>
      rw [addNode_absent g x hx]
      show lookupKey (g.nodes ++ [(x, { name := x, calls := [], calledBy := [] })]) a = _
      rw [lookupKey_append_single]
      cases lookupKey g.nodes a <;> simp [h]

theorem lookupKey_addNode_self (g : CallGraph) (x : String) :
    (lookupKey (addNode g x).nodes x).isSome = true := by
  cases hx : lookupKey g.nodes x with
  | some n => rw [addNode_present g x n hx, hx]; rfl
  | none =>
      rw [addNode_absent g x hx]
      show (lookupKey (g.nodes ++ [(x, { name := x, calls := [], calledBy := [] })]) x).isSome = true
      rw [lookupKey_append_single]
      simp [hx]

theorem callsKeys_addNode (g : CallGraph) (x a : String) :
    callsKeys (addNode g x) a = callsKeys g a := by
  by_cases h : x = a
  · subst h
    cases hx : lookupKey g.nodes x with
    | some n => rw [addNode_present g x n hx]
    | none =>
        unfold callsKeys
        rw [addNode_absent g x hx]
        show (match lookupKey (g.nodes ++ [(x, { name := x, calls := [], calledBy := [] })]) x with
              | some n => n.calls
              | none => []) = _
        rw [lookupKey_append_single]
        simp [hx]
  · unfold callsKeys
    rw [lookupKey_addNode_of_ne g x a h]

theorem calledByKeys_addNode (g : CallGraph) (x a : String) :
    calledByKeys (addNode g x) a = calledByKeys g a := by
  by_cases h : x = a
  · subst h
    cases hx : lookupKey g.nodes x with
    | some n => rw [addNode_present g x n hx]
    | none =>
        unfold calledByKeys
        rw [addNode_absent g x hx]
        show (match lookupKey (g.nodes ++ [(x, { name := x, calls := [], calledBy := [] })]) x with
              | some n => n.calledBy
              | none => []) = _
        rw [lookupKey_append_single]
        simp [hx]
  · unfold calledByKeys
    rw [lookupKey_addNode_of_ne g x a h]

theorem isSome_lookup_addNode (g : CallGraph) (x a : String)
    (h : (lookupKey g.nodes a).isSome = true) :
    (lookupKey (addNode g x).nodes a).isSome = true := by
  by_cases hxa : x = a
  · subst hxa; exact lookupKey_addNode_self g x
  · rw [lookupKey_addNode_of_ne g x a hxa]; exact h

theorem addEdge_nodes (g : CallGraph) (src dst : String) :
    (addEdge g src dst).nodes =
      updateNode
        (updateNode (addNode g dst).nodes src (fun n => { n with calls := insertKey dst n.calls }))
        dst (fun n => { n with calledBy := insertKey src n.calledBy }) := rfl

theorem callsKeys_addEdge (g : CallGraph) (src dst a : String)
    (hsrc : (lookupKey g.nodes src).isSome = true) :
    callsKeys (addEdge g src dst) a =
      if a = src then insertKey dst (callsKeys g a) else callsKeys g a := by
  by_cases has : a = src
  · subst has
    obtain ⟨n, hn⟩ := Option.isSome_iff_exists.mp (isSome_lookup_addNode g dst a hsrc)
    have hcalls : callsKeys g a = n.calls := by
      rw [← callsKeys_addNode g dst a]
      unfold callsKeys
      rw [hn]
    rw [if_pos rfl, hcalls]
    unfold callsKeys
    rw [addEdge_nodes, lookupKey_updateNode, lookupKey_updateNode, hn]
    by_cases had : a = dst <;> simp [had]
  · cases hL : lookupKey (addNode g dst).nodes a with
    | some n =>
        have hcalls : callsKeys g a = n.calls := by
          rw [← callsKeys_addNode g dst a]
          unfold callsKeys
          rw [hL]
        rw [if_neg has, hcalls]
        unfold callsKeys
        rw [addEdge_nodes, lookupKey_updateNode, lookupKey_updateNode, hL]
        by_cases had : a = dst
        · subst had; simp [has]
        · simp [had, has]
    | none =>
        have hcalls : callsKeys g a = [] := by
          rw [← callsKeys_addNode g dst a]
          unfold callsKeys
          rw [hL]
        rw [if_neg has, hcalls]
        unfold callsKeys
        rw [addEdge_nodes, lookupKey_updateNode, lookupKey_updateNode, hL]
        by_cases had : a = dst
        · subst had; simp [has]
        · simp [had, has]

theorem calledByKeys_addEdge (g : CallGraph) (src dst a : String) :
    calledByKeys (addEdge g src dst) a =
      if a = dst then insertKey src (calledByKeys g a) else calledByKeys g a := by
  by_cases had : a = dst
  · subst had
    obtain ⟨n, hn⟩ := Option.isSome_iff_exists.mp (lookupKey_addNode_self g a)
    have hcb : calledByKeys g a = n.calledBy := by
      rw [← calledByKeys_addNode g a a]
      unfold calledByKeys
      rw [hn]
    rw [if_pos rfl, hcb]
    unfold calledByKeys
    rw [addEdge_nodes, lookupKey_updateNode, lookupKey_updateNode, hn]
    by_cases has : a = src <;> simp [has]
  · cases hL : lookupKey (addNode g dst).nodes a with
    | some n =>
        have hcb : calledByKeys g a = n.calledBy := by
          rw [← calledByKeys_addNode g dst a]
          unfold calledByKeys
          rw [hL]
        rw [if_neg had, hcb]
        unfold calledByKeys
        rw [addEdge_nodes, lookupKey_updateNode, lookupKey_updateNode, hL]
        by_cases has : a = src
        · subst has; simp [had]
        · simp [has, had]
    | none =>
        have hcb : calledByKeys g a = [] := by
          rw [← calledByKeys_addNode g dst a]
          unfold calledByKeys
          rw [hL]
        rw [if_neg had, hcb]
        unfold calledByKeys
        rw [addEdge_nodes, lookupKey_updateNode, lookupKey_updateNode, hL]
        by_cases has : a = src
        · subst has; simp [had]
        · simp [has, had]

theorem isSome_lookup_addEdge (g : CallGraph) (src dst a : String)
    (h : (lookupKey g.nodes a).isSome = true) :
    (lookupKey (addEdge g src dst).nodes a).isSome = true := by
  obtain ⟨n, hn⟩ := Option.isSome_iff_exists.mp (isSome_lookup_addNode g dst a h)
  rw [addEdge_nodes, lookupKey_updateNode, lookupKey_updateNode, hn]
  split_ifs <;> simp

theorem mem_insertKey (a k : String) (l : List String) :
    a ∈ insertKey k l ↔ a = k ∨ a ∈ l := by
  unfold insertKey
  by_cases h : k ∈ l
  · simp only [if_pos h]
    constructor
    · exact Or.inr
    · rintro (rfl | m)
      · exact h
      · exact m
  · simp [if_neg h, List.mem_append, or_comm]

theorem symGraph_addNode (g : CallGraph) (x : String) (h : SymGraph g) :
    SymGraph (addNode g x) := by
  intro a b
  rw [callsKeys_addNode, calledByKeys_addNode]
  exact h a b

theorem symGraph_addEdge (g : CallGraph) (src dst : String)
    (hsrc : (lookupKey g.nodes src).isSome = true) (h : SymGraph g) :
    SymGraph (addEdge g src dst) := by
  intro a b
  rw [callsKeys_addEdge g src dst a hsrc, calledByKeys_addEdge g src dst b]
  by_cases has : a = src
  · subst has
    by_cases hbd : b = dst
    · subst hbd
      simp [mem_insertKey]
    · simp [hbd, mem_insertKey, h a b]
  · by_cases hbd : b = dst
    · subst hbd
      simp [has, mem_insertKey, h a b]
    · simp [has, hbd, h a b]

theorem symGraph_empty : SymGraph (CallGraph.mk []) := by
  intro a b
  simp [callsKeys, calledByKeys, lookupKey]

theorem symGraph_foldl_addNode (l : List FunctionInfo) :
    ∀ (g : CallGraph), SymGraph g →
    SymGraph (l.foldl (fun g fi => addNode g (getFunctionFullName fi)) g) := by
  induction l with
  | nil => intro g h; exact h
  | cons fi rest ih => intro g h; exact ih _ (symGraph_addNode _ _ h)

theorem initNodes_symGraph (fns : List FunctionInfo) : SymGraph (initNodes fns) :=
  symGraph_foldl_addNode fns (CallGraph.mk []) symGraph_empty

theorem lookup_foldl_addNode (l : List FunctionInfo) :
    ∀ (g : CallGraph) (a : String),
    ((lookupKey g.nodes a).isSome = true ∨ ∃ fi ∈ l, getFunctionFullName fi = a) →
    (lookupKey (l.foldl (fun g fi => addNode g (getFunctionFullName fi)) g).nodes a).isSome = true := by
  induction l with
  | nil =>
      intro g a h
      rcases h with h | ⟨fi, hfi, _⟩
      · exact h
      · simp at hfi
  | cons fj rest ih =>
      intro g a h
      apply ih
      rcases h with h | ⟨fi, hfi, hname⟩
      · exact Or.inl (isSome_lookup_addNode _ _ _ h)
      · rcases List.mem_cons.mp hfi with rfl | hmem
        · subst hname
          exact Or.inl (lookupKey_addNode_self g _)
        · exact Or.inr ⟨fi, hmem, hname⟩

theorem initNodes_present (fns : List FunctionInfo) (fi : FunctionInfo) (h : fi ∈ fns) :
    (lookupKey (initNodes fns).nodes (getFunctionFullName fi)).isSome = true :=
  lookup_foldl_addNode fns (CallGraph.mk []) _ (Or.inr ⟨fi, h, rfl⟩)

theorem isSome_addCallEdges (calls : List FunctionCallInfo) :
    ∀ (g : CallGraph) (src a : String),
    (lookupKey g.nodes a).isSome = true →
    (lookupKey (addCallEdges g src calls).nodes a).isSome = true := by
  induction calls with
  | nil => intro g src a h; exact h
  | cons c cs ih =>
      intro g src a h
      exact ih _ _ _ (isSome_lookup_addEdge _ _ _ _ h)

theorem symGraph_addCallEdges (calls : List FunctionCallInfo) :
    ∀ (g : CallGraph) (src : String),
    (lookupKey g.nodes src).isSome = true → SymGraph g →
    SymGraph (addCallEdges g src calls) := by
  induction calls with
  | nil => intro g src _ h; exact h
  | cons c cs ih =>
      intro g src hs h
      exact ih _ _ (isSome_lookup_addEdge _ _ _ _ hs) (symGraph_addEdge _ _ _ hs h)

theorem buildCallGraphGo_sym (res : FunctionInfo → Except String (List FunctionCallInfo)) :
    ∀ (l : List FunctionInfo) (g g' : CallGraph),
    SymGraph g → (∀ fi ∈ l, (lookupKey g.nodes (getFunctionFullName fi)).isSome = true) →
    buildCallGraphGo res l g = Except.ok g' → SymGraph g' := by
  intro l
  induction l with
  | nil =>
      intro g g' hs _ h
      simp only [buildCallGraphGo, Except.ok.injEq] at h
      rwa [← h]
  | cons fi rest ih =>
      intro g g' hs hpres h
      simp only [buildCallGraphGo] at h
      cases hr : res fi with
      | error e =>
          rw [hr] at h
          exact absurd h (by simp)
      | ok calls =>
          rw [hr] at h
          have hsrc : (lookupKey g.nodes (getFunctionFullName fi)).isSome = true :=
            hpres fi (List.mem_cons_self fi rest)
          apply ih _ g' (symGraph_addCallEdges calls g _ hsrc hs) _ h
          intro fj hfj
          exact isSome_addCallEdges calls g _ _ (hpres fj (List.mem_cons_of_mem fi hfj))

theorem buildCallGraphGo_ok_res (res : FunctionInfo → Except String (List FunctionCallInfo)) :
    ∀ (l : List FunctionInfo) (g g' : CallGraph),
    buildCallGraphGo res l g = Except.ok g' → ∀ fi ∈ l, ∃ cs, res fi = Except.ok cs := by
  intro l
  induction l with
  | nil => intro g g' _ fi hfi; simp at hfi
  | cons fj rest ih =>
      intro g g' h fi hfi
      simp only [buildCallGraphGo] at h
      cases hr : res fj with
      | error e =>
          rw [hr] at h
          exact absurd h (by simp)
      | ok calls =>
          rw [hr] at h
          rcases List.mem_cons.mp hfi with rfl | hmem
          · exact ⟨calls, hr⟩
          · exact ih _ _ h fi hmem

/-- Claim C9: in every call graph BuildCallGraph returns, the Calls
and CalledBy adjacency maps are symmetric: node b is in node a's Calls
map exactly when node a is in node b's CalledBy map, because every
edge insertion updates both endpoints. -/
theorem c9_calls_calledBy_symmetric (res : FunctionInfo → Except String (List FunctionCallInfo))
    (fns : List FunctionInfo) (g : CallGraph) (h : BuildCallGraph res fns = Except.ok g) :
    ∀ a b, b ∈ callsKeys g a ↔ a ∈ calledByKeys g b :=
  buildCallGraphGo_sym res fns (initNodes fns) g (initNodes_symGraph fns)
    (fun fi hfi => initNodes_present fns fi hfi) h

/-- Witness for c9_calls_calledBy_symmetric on the one-function graph
where A calls B. -/
theorem c9_calls_calledBy_symmetric_witness :
    "B" ∈ callsKeys c9graph "A" ↔ "A" ∈ calledByKeys c9graph "B" :=
  c9_calls_calledBy_symmetric c9res [c9fn] c9graph rfl "A" "B"

/-- Claim C2 (code bug): the claim says indexing and graph assembly
both key the two methods x/Worker.Run and y/Worker.Run distinctly, the
key always including the package.  Indexing does (registry keys x.Run
and y.Run differ), but graph assembly's getFunctionFullName keys a
method as StructName.Name without the package, so both methods map to
the single key Worker.Run and BuildCallGraph merges them into one
graph node. -/
theorem c2_identity_merge :
    registryKey c2x.pkgName c2x.name ≠ registryKey c2y.pkgName c2y.name
    ∧ getFunctionFullName c2x = "Worker.Run"
    ∧ getFunctionFullName c2y = "Worker.Run"
    ∧ BuildCallGraph (fun _ => Except.ok []) [c2x, c2y] =
        Except.ok (CallGraph.mk
          [("Worker.Run", { name := "Worker.Run", calls := [], calledBy := [] })]) := by
  refine ⟨by decide, rfl, rfl, rfl⟩

/-- Claim C3 counterexample: the ListFunctions resolver
analyzeFunctionCalls drops a call expression silently.  The body
v.Fn() holds one call expression (countCallsList = 1), the alias v is
unknown, and the traversal records neither an internal call nor an
external reference. -/
theorem c3_analyze_drops_call :
    (analyzeVisitList c3env { functionCalls := [], externals := [] } c3body).functionCalls = []
    ∧ (analyzeVisitList c3env { functionCalls := [], externals := [] } c3body).externals = []
    ∧ countCallsList c3body = 1 :=
  ⟨rfl, rfl, rfl⟩

/-- Claim C4: a call whose target is a bare identifier is ignored when
the identifier is a built-in, recorded as a local call referencing the
registry's exact descriptor when (package, identifier) is registered,
and recorded as an external with empty package and import path
otherwise. -/
theorem c4_bare_identifier_classification (env : AnalyzeEnv) (st : AnalyzeSt) (name : String) :
    (builtInFuncs.contains name = true → analyzeCallFun env st (.ident name) = st)
    ∧ (∀ fd, builtInFuncs.contains name = false →
        lookupKey env.internalFuncs (registryKey env.pkgName name) = some fd →
        analyzeCallFun env st (.ident name) =
          { st with functionCalls := st.functionCalls ++ [fd] })
    ∧ (builtInFuncs.contains name = false →
        lookupKey env.internalFuncs (registryKey env.pkgName name) = none →
        analyzeCallFun env st (.ident name) =
          { st with externals := st.externals ++ [{ name := name, type := "", importPath := "" }] }) := by
  refine ⟨?_, ?_, ?_⟩
  · intro h
    have h2 : name ∈ builtInFuncs := by simpa using h
    simp [analyzeCallFun, h2]
  · intro fd h hl
    have h2 : name ∉ builtInFuncs := by simpa using h
    simp [analyzeCallFun, h2, hl]
  · intro h hl
    have h2 : name ∉ builtInFuncs := by simpa using h
    simp [analyzeCallFun, h2, hl]

/-- Witness for c4_bare_identifier_classification: the built-in len,
the registered function Foo and the unknown function Bar, against a
registry holding main.Foo. -/
theorem c4_bare_identifier_classification_witness :
    analyzeCallFun c4env c4st (.ident "len") = c4st
    ∧ analyzeCallFun c4env c4st (.ident "Foo") =
        { c4st with functionCalls := c4st.functionCalls ++ [c4fd] }
    ∧ analyzeCallFun c4env c4st (.ident "Bar") =
        { c4st with externals := c4st.externals ++ [{ name := "Bar", type := "", importPath := "" }] } :=
  ⟨(c4_bare_identifier_classification c4env c4st "len").1 rfl,
   (c4_bare_identifier_classification c4env c4st "Foo").2.1 c4fd rfl rfl,
   (c4_bare_identifier_classification c4env c4st "Bar").2.2 rfl rfl⟩

/-- Claim C7 counterexample: in BuildCallGraph a function body that
fails to re-parse is fatal to the whole run: with two functions of
which the first fails, the build returns the error and produces no
graph at all, against the claim that such a failure is never fatal. -/
theorem c7_reparse_failure_is_fatal_in_graph :
    BuildCallGraph c7res [c7fnA, c7fnB] = Except.error "failed to parse function code" := rfl

/-- Claim C7 (amended): in the ListFunctions pipeline a function whose
analysis fails keeps its indexed (empty) call list and the pass runs
to completion over every function; in BuildCallGraph, however, a
successful build requires every function's resolution to have
succeeded — one re-parse failure aborts the whole graph build. -/
theorem c7_reparse_failure_handling :
    (∀ (resL : FunctionInfoL → Except String AnalyzeSt) (fns : List FunctionInfoL),
        (secondPass resL fns).length = fns.length)
    ∧ (∀ (resL : FunctionInfoL → Except String AnalyzeSt) (f : FunctionInfoL) (e : String),
        resL f = Except.error e → secondPassOne resL f = f)
    ∧ (∀ (res : FunctionInfo → Except String (List FunctionCallInfo))
        (fns : List FunctionInfo) (g : CallGraph),
        BuildCallGraph res fns = Except.ok g → ∀ fi ∈ fns, ∃ cs, res fi = Except.ok cs) := by
  refine ⟨?_, ?_, ?_⟩
  · intro resL fns
    simp [secondPass]
  · intro resL f e h
    simp [secondPassOne, h]
  · intro res fns g h fi hfi
    exact buildCallGraphGo_ok_res res fns (initNodes fns) g h fi hfi

/-- Witness for c7_reparse_failure_handling: a function whose
analysis fails is returned unchanged, and a build that succeeded had a
successful resolution for its function. -/
theorem c7_reparse_failure_handling_witness :
    secondPassOne (fun _ => Except.error "failed to parse file a.go") c7l = c7l
    ∧ ∃ cs, (fun _ : FunctionInfo =>
        (Except.ok [] : Except String (List FunctionCallInfo))) c7fnB = Except.ok cs := by
  constructor
  · exact c7_reparse_failure_handling.2.1 _ c7l "failed to parse file a.go" rfl
  · exact c7_reparse_failure_handling.2.2
      (fun _ => (Except.ok [] : Except String (List FunctionCallInfo))) [c7fnB]
      (CallGraph.mk [("B", { name := "B", calls := [], calledBy := [] })]) rfl c7fnB
      (List.mem_singleton.mpr rfl)

theorem getModulePath_found (fs : List String → Option (List String)) (dir : List String)
    (lines : List String) (h : fs dir = some lines) :
    getModulePath fs dir =
      (match findModuleLine lines with
       | some m => Except.ok m
       | none => Except.error "module path not found in go.mod") := by
  unfold getModulePath
  rw [h]

theorem getModulePath_none_root (fs : List String → Option (List String)) (h : fs [] = none) :
    getModulePath fs [] = Except.error "go.mod not found in any parent directories" := by
  unfold getModulePath
  rw [h]
  simp

theorem getModulePath_step (fs : List String → Option (List String)) (dir : List String)
    (h : fs dir = none) (hne : dir ≠ []) :
    getModulePath fs dir = getModulePath fs dir.dropLast := by
  conv_lhs => rw [getModulePath.eq_def]
  rw [h]
  exact dif_neg hne

theorem getModulePath_no_manifest (fs : List String → Option (List String)) :
    ∀ (dir : List String), (∀ n, n ≤ dir.length → fs (dir.take n) = none) →
    getModulePath fs dir = Except.error "go.mod not found in any parent directories" := by
  intro dir
  induction dir using List.reverseRecOn with
  | nil =>
      intro h
      exact getModulePath_none_root fs (by simpa using h 0 (by simp))
  | append_singleton l a ih =>
      intro h
      have hTop : fs (l ++ [a]) = none := by
        have h2 := h ((l ++ [a]).length) (le_refl _)
        rwa [List.take_length] at h2
      have hne : l ++ [a] ≠ [] := by simp
      rw [getModulePath_step fs (l ++ [a]) hTop hne, List.dropLast_concat]
      apply ih
      intro n hn
      have h2 := h n (by simp; omega)
      rwa [List.take_append_of_le_length hn] at h2

theorem getModulePath_nearest (fs : List String → Option (List String)) :
    ∀ (dir : List String) (n : Nat) (lines : List String) (m : String),
    n ≤ dir.length → fs (dir.take n) = some lines →
    (∀ k, k ≤ dir.length → n < k → fs (dir.take k) = none) →
    findModuleLine lines = some m →
    getModulePath fs dir = Except.ok m := by
  intro dir
  induction dir using List.reverseRecOn with
  | nil =>
      intro n lines m hn hsome _ hfind
      have hn0 : n = 0 := Nat.le_zero.mp (by simpa using hn)
      subst hn0
      have h0 : fs [] = some lines := by simpa using hsome
      rw [getModulePath_found fs [] lines h0, hfind]
  | append_singleton l a ih =>
      intro n lines m hn hsome hnone hfind
      by_cases hlen : n = (l ++ [a]).length
      · subst hlen
        rw [List.take_length] at hsome
        rw [getModulePath_found fs (l ++ [a]) lines hsome, hfind]
      · have hle : n ≤ l.length := by
          simp at hn hlen ⊢
          omega
        have hTop : fs (l ++ [a]) = none := by
          have h2 := hnone ((l ++ [a]).length) (le_refl _) (by simp at hlen ⊢; omega)
          rwa [List.take_length] at h2
        have hne : l ++ [a] ≠ [] := by simp
        rw [getModulePath_step fs (l ++ [a]) hTop hne, List.dropLast_concat]
        refine ih n lines m hle ?_ ?_ hfind
        · rwa [List.take_append_of_le_length hle] at hsome
        · intro k hk hnk
          have h2 := hnone k (by simp; omega) hnk
          rwa [List.take_append_of_le_length hk] at h2

/-- Claim C8: when no manifest exists in the project root or any of
its ancestors up to the filesystem root, getModulePath walks all the
way up and fails, and ListFunctions returns that failure instead of a
registry; when a manifest exists, the nearest one on the way up
supplies the declared module path. -/
theorem c8_manifest_resolution :
    (∀ (fs : List String → Option (List String)) (dir : List String)
        (indexed : List FunctionInfoL) (resL : FunctionInfoL → Except String AnalyzeSt),
        (∀ n, n ≤ dir.length → fs (dir.take n) = none) →
        getModulePath fs dir = Except.error "go.mod not found in any parent directories"
        ∧ ListFunctionsModel fs dir indexed resL =
            Except.error "failed to get module path: go.mod not found in any parent directories")
    ∧ (∀ (fs : List String → Option (List String)) (dir : List String) (n : Nat)
        (lines : List String) (m : String),
        n ≤ dir.length → fs (dir.take n) = some lines →
        (∀ k, k ≤ dir.length → n < k → fs (dir.take k) = none) →
        findModuleLine lines = some m →
        getModulePath fs dir = Except.ok m) := by
  constructor
  · intro fs dir indexed resL h
    have h1 := getModulePath_no_manifest fs dir h
    exact ⟨h1, by simp [ListFunctionsModel, h1]⟩
  · intro fs dir n lines m hn hsome hnone hfind
    exact getModulePath_nearest fs dir n lines m hn hsome hnone hfind

/-- Witness for c8_manifest_resolution: a filesystem with no manifest
anywhere over root directory r, and one whose manifest in directory a
declares module m1, reached from the subdirectory a/b. -/
theorem c8_manifest_resolution_witness :
    (getModulePath (fun _ => none) ["r"] =
        Except.error "go.mod not found in any parent directories"
     ∧ ListFunctionsModel (fun _ => none) ["r"] []
          (fun _ => Except.ok { functionCalls := [], externals := [] }) =
        Except.error "failed to get module path: go.mod not found in any parent directories")
    ∧ getModulePath c8fs ["a", "b"] = Except.ok "m1" := by
  constructor
  · exact c8_manifest_resolution.1 (fun _ => none) ["r"] []
      (fun _ => Except.ok { functionCalls := [], externals := [] }) (fun n hn => rfl)
  · refine c8_manifest_resolution.2 c8fs ["a", "b"] 1 ["module m1"] "m1" (by simp) rfl ?_ ?_
    · intro k hk hnk
      simp at hk
      have hk2 : k = 2 := by omega
      subst hk2
      rfl
    · rfl
